import Mathlib

/-!
Verification of the `learning-for-friends` Python tutorial repository.

Each Python function relevant to the checked claims is shallowly embedded
as a Lean definition: strings become `List Char`, Python sets become
`Finset`, `datetime.now()` becomes an explicit time parameter, machine
arithmetic on alphabet positions uses `Int` with explicit `% 26`
(Python's `%` on a positive modulus and Lean's `Int.emod` both return a
non-negative representative), and fallible operations return `Option` or
an explicit error flag.  Characters use Lean's `Char`; `Char.isLower` /
`Char.isUpper` agree with Python's `str.islower` / `str.isupper` on the
ASCII range, which is the domain of every claim below.
-/

namespace LearningForFriends

/-! ### 13_utility_tools.py — TextEncryptionTool.caesar_cipher -/

namespace TextEncryptionTool

/-- Embeds `self.alphabet = string.ascii_lowercase`. -/
def alphabet : List Char := "abcdefghijklmnopqrstuvwxyz".toList

/-- Embeds `self.alphabet_upper = string.ascii_uppercase`. -/
def alphabet_upper : List Char := "ABCDEFGHIJKLMNOPQRSTUVWXYZ".toList

/-- The loop body of `caesar_cipher`, applied to one character with the
already-signed shift: lowercase letters are looked up in `alphabet`,
shifted modulo 26 and looked up again; uppercase letters likewise in
`alphabet_upper`; every other character is kept unchanged. -/
def caesar_char (shift : Int) (char : Char) : Char :=
  if char.isLower then
    let current_pos := alphabet.indexOf char
    let new_pos := ((current_pos : Int) + shift) % 26
    alphabet.getD new_pos.toNat ' '
  else if char.isUpper then
    let current_pos := alphabet_upper.indexOf char
    let new_pos := ((current_pos : Int) + shift) % 26
    alphabet_upper.getD new_pos.toNat ' '
  else
    char

/-- Embeds `TextEncryptionTool.caesar_cipher(text, shift, encrypt)`:
the shift is negated for decryption and the loop over the characters of
`text` is a `List.map` of `caesar_char`. -/
def caesar_cipher (text : List Char) (shift : Int) (encrypt : Bool) : List Char :=
  let shift := if encrypt then shift else -shift
  text.map (caesar_char shift)

end TextEncryptionTool

/-! ### 12_games_and_apps.py — TicTacToe -/

/-- A 3×3 board of cells, each holding `' '`, `'X'` or `'O'`
(embeds `self.board = [[' ' for _ in range(3)] for _ in range(3)]`). -/
abbrev Board := Fin 3 → Fin 3 → Char

/-- Embeds the mutable state of class `TicTacToe`. -/
structure TicTacToe where
  board : Board
  current_player : Char
  game_over : Bool

/-- Embeds `TicTacToe.check_winner`: the three row checks, the three
column checks and the two diagonal checks, in source order; the Python
chained comparison `a == b == c != ' '` is `a = b ∧ b = c ∧ c ≠ ' '`. -/
def check_winner (b : Board) : Option Char :=
  if b 0 0 = b 0 1 ∧ b 0 1 = b 0 2 ∧ b 0 2 ≠ ' ' then some (b 0 0)
  else if b 1 0 = b 1 1 ∧ b 1 1 = b 1 2 ∧ b 1 2 ≠ ' ' then some (b 1 0)
  else if b 2 0 = b 2 1 ∧ b 2 1 = b 2 2 ∧ b 2 2 ≠ ' ' then some (b 2 0)
  else if b 0 0 = b 1 0 ∧ b 1 0 = b 2 0 ∧ b 2 0 ≠ ' ' then some (b 0 0)
  else if b 0 1 = b 1 1 ∧ b 1 1 = b 2 1 ∧ b 2 1 ≠ ' ' then some (b 0 1)
  else if b 0 2 = b 1 2 ∧ b 1 2 = b 2 2 ∧ b 2 2 ≠ ' ' then some (b 0 2)
  else if b 0 0 = b 1 1 ∧ b 1 1 = b 2 2 ∧ b 2 2 ≠ ' ' then some (b 0 0)
  else if b 0 2 = b 1 1 ∧ b 1 1 = b 2 0 ∧ b 2 0 ≠ ' ' then some (b 0 2)
  else none

/-- Mark `m` occupies one of the 8 winning lines (3 rows, 3 columns,
2 diagonals) of board `b`, and is not the blank cell character. -/
def winning_mark (b : Board) (m : Char) : Prop :=
  m ≠ ' ' ∧
  ((b 0 0 = m ∧ b 0 1 = m ∧ b 0 2 = m) ∨
   (b 1 0 = m ∧ b 1 1 = m ∧ b 1 2 = m) ∨
   (b 2 0 = m ∧ b 2 1 = m ∧ b 2 2 = m) ∨
   (b 0 0 = m ∧ b 1 0 = m ∧ b 2 0 = m) ∨
   (b 0 1 = m ∧ b 1 1 = m ∧ b 2 1 = m) ∨
   (b 0 2 = m ∧ b 1 2 = m ∧ b 2 2 = m) ∨
   (b 0 0 = m ∧ b 1 1 = m ∧ b 2 2 = m) ∨
   (b 0 2 = m ∧ b 1 1 = m ∧ b 2 0 = m))

/-- Embeds `TicTacToe.make_move(row, col)`: reject out-of-range
coordinates (`row < 0 or row >= 3 or col < 0 or col >= 3`), reject an
occupied cell, otherwise write `self.current_player` into the cell and
report success.  The row/col arguments are integers, as in Python. -/
def make_move (g : TicTacToe) (row col : Int) : Bool × TicTacToe :=
  if h : row < 0 ∨ 3 ≤ row ∨ col < 0 ∨ 3 ≤ col then
    (false, g)
  else
    let r : Fin 3 := ⟨row.toNat, by omega⟩
    let c : Fin 3 := ⟨col.toNat, by omega⟩
    if g.board r c ≠ ' ' then
      (false, g)
    else
      (true, { g with board := fun i j => if i = r ∧ j = c then g.current_player else g.board i j })

/-! ### 12_games_and_apps.py — HangmanGame -/

/-- Embeds the word list `self.words` of `HangmanGame.__init__`. -/
def words : List (List Char) :=
  ["python", "programming", "computer", "algorithm", "function",
   "variable", "dictionary", "list", "string", "integer",
   "boolean", "class", "object", "method", "inheritance"].map String.toList

/-- Embeds the mutable state of class `HangmanGame`. -/
structure HangmanGame where
  word : List Char
  guessed_letters : Finset Char
  wrong_guesses : Nat
  max_wrong_guesses : Nat

/-- Embeds `HangmanGame.select_random_word` on a freshly constructed
game: `random.choice(self.words)` is modelled by taking the chosen word
as a parameter; `.lower()` maps `Char.toLower` over it; the guessed-letter
set and the wrong-guess counter are reset, and `max_wrong_guesses` keeps
the value 6 set by `__init__`. -/
def select_random_word (chosen : List Char) : HangmanGame :=
  { word := chosen.map Char.toLower
    guessed_letters := ∅
    wrong_guesses := 0
    max_wrong_guesses := 6 }

/-- Embeds `HangmanGame.make_guess(letter)`: lowercase the letter; an
already-guessed letter is rejected with no state change; otherwise the
letter joins the guessed set, and if it does not occur in the word the
wrong-guess counter increases by one. -/
def make_guess (g : HangmanGame) (letter : Char) : Bool × HangmanGame :=
  let letter := letter.toLower
  if letter ∈ g.guessed_letters then
    (false, g)
  else
    let g' := { g with guessed_letters := insert letter g.guessed_letters }
    if letter ∈ g'.word then
      (true, g')
    else
      (false, { g' with wrong_guesses := g'.wrong_guesses + 1 })

/-- Embeds `HangmanGame.is_game_lost`: `wrong_guesses >= max_wrong_guesses`. -/
def is_game_lost (g : HangmanGame) : Bool :=
  g.max_wrong_guesses ≤ g.wrong_guesses

/-- A whole interaction: feed a sequence of guesses to the game, keeping
only the evolving state (the printed messages and Bool results of
`make_guess` do not feed back into the state). -/
def play_guesses (g : HangmanGame) (gs : List Char) : HangmanGame :=
  gs.foldl (fun s c => (make_guess s c).2) g

/-! ### 07_error_handling.py — safe_divide -/

/-- The exceptions that `safe_divide` handles. -/
inductive PyError where
  | zeroDivisionError
  | typeError
  deriving DecidableEq

/-- Python's `a / b` on numbers: raises `ZeroDivisionError` when `b` is
zero, otherwise evaluates the quotient.  Numbers are modelled as `ℚ`
(the claim is about which value is returned, not float rounding); with
numeric arguments a `TypeError` is impossible. -/
def py_div (a b : ℚ) : Except PyError ℚ :=
  if b = 0 then .error .zeroDivisionError else .ok (a / b)

/-- Embeds `safe_divide(a, b)`: try the division and return the result;
a `ZeroDivisionError` or `TypeError` is caught, a message is printed
(not modelled) and `None` is returned.  The function is total: no
exception escapes. -/
def safe_divide (a b : ℚ) : Option ℚ :=
  match py_div a b with
  | .ok result => some result
  | .error .zeroDivisionError => none
  | .error .typeError => none

/-! ### 10_database_operations.py — transaction_example -/

/-- The two account rows of the `accounts` table in `transaction_example`
(`Alice` and `Bob` with their `balance REAL` columns, modelled as `ℚ`). -/
structure Accounts where
  alice : ℚ
  bob : ℚ
  deriving DecidableEq

/-- Embeds the `BEGIN TRANSACTION … COMMIT / ROLLBACK` block of
`transaction_example`: the two `UPDATE` statements move 200 from Alice
to Bob on a working copy of the database state; if Alice's resulting
balance is negative, or an `sqlite3.Error` occurs inside the try block
(modelled by the `sqlite_error` flag), the transaction is rolled back to
the state at `BEGIN`; otherwise it is committed. -/
def transaction_transfer (init : Accounts) (sqlite_error : Bool) : Accounts :=
  if sqlite_error then
    init
  else
    let updated : Accounts := { alice := init.alice - 200, bob := init.bob + 200 }
    if updated.alice < 0 then init else updated

/-! ### 11_advanced_projects.py — Task -/

/-- Embeds class `Task`.  Timestamps (`datetime.now()`) are modelled as
`Nat` instants supplied by the caller; `id` is `Option Nat` because
`__init__` sets it to `None`. -/
structure Task where
  title : String
  description : String
  priority : String
  status : String
  due_date : Option Nat
  created_at : Nat
  updated_at : Nat
  id : Option Nat
  deriving DecidableEq

/-- The `valid_statuses` list of `Task.update_status`. -/
def valid_statuses : List String :=
  ["pending", "in_progress", "completed", "cancelled"]

/-- Embeds `Task.update_status(new_status)`: when the new status is in
`valid_statuses`, set it, refresh `updated_at` to the current instant
and return `True`; otherwise return `False` and change nothing. -/
def update_status (t : Task) (new_status : String) (now : Nat) : Bool × Task :=
  if new_status ∈ valid_statuses then
    (true, { t with status := new_status, updated_at := now })
  else
    (false, t)

/-! ### 12_games_and_apps.py — NoteTakingApp -/

/-- Embeds a note dictionary: exactly the six fields written by
`create_note`.  Timestamps (`datetime.now().isoformat()`) are modelled
as `Nat` instants supplied by the caller. -/
structure Note where
  id : Nat
  title : String
  content : String
  category : String
  created_at : Nat
  updated_at : Nat
  deriving DecidableEq

/-- Embeds the state of `NoteTakingApp`: the notes list and the set of
categories (file persistence via `save_notes` is not modelled). -/
structure NoteTakingApp where
  notes : List Note
  categories : Finset String

/-- Embeds `NoteTakingApp.create_note(title, content, category)`: build
a note whose `id` is `len(self.notes) + 1` and whose two timestamps are
the current instant, append it to the list and add the category to the
category set. -/
def create_note (app : NoteTakingApp) (title content category : String) (now : Nat) :
    NoteTakingApp :=
  let note : Note :=
    { id := app.notes.length + 1
      title := title
      content := content
      category := category
      created_at := now
      updated_at := now }
  { notes := app.notes ++ [note]
    categories := insert category app.categories }

/-- Python truthiness of an optional-string argument such as
`new_title`: `None` and the empty string are falsy. -/
def truthy : Option String → Bool
  | none => false
  | some s => !s.isEmpty

/-- The field updates applied by `edit_note` to the matched note:
each of the three optional arguments overwrites its field only when
truthy, and `updated_at` is always refreshed. -/
def apply_edits (note : Note) (new_title new_content new_category : Option String)
    (now : Nat) : Note :=
  { note with
    title := if truthy new_title then new_title.getD note.title else note.title
    content := if truthy new_content then new_content.getD note.content else note.content
    category := if truthy new_category then new_category.getD note.category else note.category
    updated_at := now }

/-- The loop of `edit_note`: walk the list and rewrite the FIRST note
whose `id` matches, reporting whether one was found. -/
def edit_note_list (notes : List Note) (note_id : Nat)
    (new_title new_content new_category : Option String) (now : Nat) :
    Bool × List Note :=
  match notes with
  | [] => (false, [])
  | note :: rest =>
    if note.id = note_id then
      (true, apply_edits note new_title new_content new_category now :: rest)
    else
      let r := edit_note_list rest note_id new_title new_content new_category now
      (r.1, note :: r.2)

/-- Embeds `NoteTakingApp.edit_note`: edit the first note with the given
id; when found and a truthy new category was supplied, the category is
also added to the category set. -/
def edit_note (app : NoteTakingApp) (note_id : Nat)
    (new_title new_content new_category : Option String) (now : Nat) :
    Bool × NoteTakingApp :=
  let r := edit_note_list app.notes note_id new_title new_content new_category now
  ( r.1
  , { notes := r.2
      categories :=
        if r.1 ∧ truthy new_category then
          insert (new_category.getD "") app.categories
        else
          app.categories } )

/-- The loop of `delete_note`: remove the FIRST note whose `id` matches
(`enumerate` + `pop(i)` on the first hit), reporting whether one was
found. -/
def delete_note_list (notes : List Note) (note_id : Nat) : Bool × List Note :=
  match notes with
  | [] => (false, [])
  | note :: rest =>
    if note.id = note_id then
      (true, rest)
    else
      let r := delete_note_list rest note_id
      (r.1, note :: r.2)

/-- Embeds `NoteTakingApp.delete_note(note_id)`. -/
def delete_note (app : NoteTakingApp) (note_id : Nat) : Bool × NoteTakingApp :=
  let r := delete_note_list app.notes note_id
  (r.1, { app with notes := r.2 })

/-- A concrete `NoteTakingApp` run: starting from an empty app, create
two notes (ids 1 and 2), delete note 1 — which is not the most recently
created note — and then create another note, whose id is again
`len(notes) + 1 = 2`. -/
def note_scenario : NoteTakingApp :=
  create_note
    (delete_note (create_note (create_note ⟨[], ∅⟩ "n1" "c1" "General" 1)
      "n2" "c2" "General" 2) 1).2
    "n3" "c3" "General" 4

/-! ## Theorems -/

/-! ### Character-level facts about the Caesar cipher alphabets -/

namespace TextEncryptionTool

theorem toNat_bounds_of_isLower {c : Char} (h : c.isLower = true) :
    97 ≤ c.toNat ∧ c.toNat ≤ 122 := by
  simp [Char.isLower] at h
  exact ⟨UInt32.le_toNat_of_le (by decide) h.1, UInt32.toNat_le_of_le (by decide) h.2⟩

theorem toNat_bounds_of_isUpper {c : Char} (h : c.isUpper = true) :
    65 ≤ c.toNat ∧ c.toNat ≤ 90 := by
  simp [Char.isUpper] at h
  exact ⟨UInt32.le_toNat_of_le (by decide) h.1, UInt32.toNat_le_of_le (by decide) h.2⟩

theorem isLower_eq_false_of_isUpper {c : Char} (h : c.isUpper = true) :
    c.isLower = false := by
  obtain ⟨_, h2⟩ := toNat_bounds_of_isUpper h
  by_contra hh
  rw [Bool.not_eq_false] at hh
  have := (toNat_bounds_of_isLower hh).1
  omega

theorem alphabet_getD {i : Nat} (h : i < 26) :
    alphabet.getD i ' ' = Char.ofNat (97 + i) := by
  have key : ∀ m : Fin 26, alphabet.getD m.val ' ' = Char.ofNat (97 + m.val) := by decide
  exact key ⟨i, h⟩

theorem alphabet_upper_getD {i : Nat} (h : i < 26) :
    alphabet_upper.getD i ' ' = Char.ofNat (65 + i) := by
  have key : ∀ m : Fin 26, alphabet_upper.getD m.val ' ' = Char.ofNat (65 + m.val) := by
    decide
  exact key ⟨i, h⟩

theorem alphabet_indexOf {c : Char} (h : c.isLower = true) :
    alphabet.indexOf c = c.toNat - 97 := by
  obtain ⟨h1, h2⟩ := toNat_bounds_of_isLower h
  have key : ∀ m : Fin 26, alphabet.indexOf (Char.ofNat (97 + m.val)) = m.val := by decide
  have hk := key ⟨c.toNat - 97, by omega⟩
  simp only at hk
  rwa [show 97 + (c.toNat - 97) = c.toNat by omega, Char.ofNat_toNat] at hk

theorem alphabet_upper_indexOf {c : Char} (h : c.isUpper = true) :
    alphabet_upper.indexOf c = c.toNat - 65 := by
  obtain ⟨h1, h2⟩ := toNat_bounds_of_isUpper h
  have key : ∀ m : Fin 26, alphabet_upper.indexOf (Char.ofNat (65 + m.val)) = m.val := by
    decide
  have hk := key ⟨c.toNat - 65, by omega⟩
  simp only at hk
  rwa [show 65 + (c.toNat - 65) = c.toNat by omega, Char.ofNat_toNat] at hk

theorem toNat_ofNat_lower {i : Nat} (h : i < 26) :
    (Char.ofNat (97 + i)).toNat = 97 + i := by
  have key : ∀ m : Fin 26, (Char.ofNat (97 + m.val)).toNat = 97 + m.val := by decide
  exact key ⟨i, h⟩

theorem toNat_ofNat_upper {i : Nat} (h : i < 26) :
    (Char.ofNat (65 + i)).toNat = 65 + i := by
  have key : ∀ m : Fin 26, (Char.ofNat (65 + m.val)).toNat = 65 + m.val := by decide
  exact key ⟨i, h⟩

theorem isLower_ofNat_lower {i : Nat} (h : i < 26) :
    (Char.ofNat (97 + i)).isLower = true := by
  have key : ∀ m : Fin 26, (Char.ofNat (97 + m.val)).isLower = true := by decide
  exact key ⟨i, h⟩

theorem isUpper_ofNat_upper {i : Nat} (h : i < 26) :
    (Char.ofNat (65 + i)).isUpper = true := by
  have key : ∀ m : Fin 26, (Char.ofNat (65 + m.val)).isUpper = true := by decide
  exact key ⟨i, h⟩

theorem caesar_char_of_isLower (k : Int) {c : Char} (h : c.isLower = true) :
    caesar_char k c = Char.ofNat (97 + (((c.toNat : Int) - 97 + k) % 26).toNat) := by
  obtain ⟨h1, h2⟩ := toNat_bounds_of_isLower h
  simp only [caesar_char, h, if_true]
  rw [alphabet_indexOf h, alphabet_getD (by omega)]
  congr 1
  omega

theorem caesar_char_of_isUpper (k : Int) {c : Char} (h : c.isUpper = true) :
    caesar_char k c = Char.ofNat (65 + (((c.toNat : Int) - 65 + k) % 26).toNat) := by
  obtain ⟨h1, h2⟩ := toNat_bounds_of_isUpper h
  simp only [caesar_char, isLower_eq_false_of_isUpper h, Bool.false_eq_true, if_false, h,
    if_true]
  rw [alphabet_upper_indexOf h, alphabet_upper_getD (by omega)]
  congr 1
  omega

theorem caesar_char_of_other (k : Int) {c : Char} (hl : c.isLower = false)
    (hu : c.isUpper = false) : caesar_char k c = c := by
  simp [caesar_char, hl, hu]

theorem caesar_char_roundtrip (k : Int) (c : Char) :
    caesar_char (-k) (caesar_char k c) = c := by
  by_cases hl : c.isLower = true
  · obtain ⟨h1, h2⟩ := toNat_bounds_of_isLower hl
    have hj : (((c.toNat : Int) - 97 + k) % 26).toNat < 26 := by omega
    rw [caesar_char_of_isLower k hl, caesar_char_of_isLower (-k) (isLower_ofNat_lower hj),
      toNat_ofNat_lower hj]
    conv_rhs => rw [← Char.ofNat_toNat c]
    congr 1
    omega
  · rw [Bool.not_eq_true] at hl
    by_cases hu : c.isUpper = true
    · obtain ⟨h1, h2⟩ := toNat_bounds_of_isUpper hu
      have hj : (((c.toNat : Int) - 65 + k) % 26).toNat < 26 := by omega
      have hj2 : (Char.ofNat (65 + (((c.toNat : Int) - 65 + k) % 26).toNat)).isLower = false :=
        isLower_eq_false_of_isUpper (isUpper_ofNat_upper hj)
      rw [caesar_char_of_isUpper k hu, caesar_char_of_isUpper (-k) (isUpper_ofNat_upper hj),
        toNat_ofNat_upper hj]
      conv_rhs => rw [← Char.ofNat_toNat c]
      congr 1
      omega
    · rw [Bool.not_eq_true] at hu
      rw [caesar_char_of_other k hl hu, caesar_char_of_other (-k) hl hu]

/-- C1: for every string of printable ASCII characters and every shift
`k` in `0..25`, `caesar_cipher` with `encrypt=False` and shift `k`
applied to the result of `caesar_cipher` with `encrypt=True` and shift
`k` returns the original string. -/
theorem caesar_decrypt_encrypt (text : List Char) (k : Int)
    (_hk : 0 ≤ k ∧ k ≤ 25)
    (_hascii : ∀ c ∈ text, 32 ≤ c.toNat ∧ c.toNat ≤ 126) :
    caesar_cipher (caesar_cipher text k true) k false = text := by
  show (text.map (caesar_char k)).map (caesar_char (-k)) = text
  have hcomp : caesar_char (-k) ∘ caesar_char k = id := funext (caesar_char_roundtrip k)
  rw [List.map_map, hcomp]
  exact List.map_id text

/-- Witness for C1 at the concrete text `"Hello, World!"` and shift 3. -/
theorem caesar_decrypt_encrypt_witness :
    ((0:Int) ≤ 3 ∧ (3:Int) ≤ 25) ∧
    caesar_cipher (caesar_cipher "Hello, World!".toList 3 true) 3 false
      = "Hello, World!".toList :=
  ⟨by decide, caesar_decrypt_encrypt "Hello, World!".toList 3 (by decide) (by decide)⟩

theorem getD_map_of_lt (f : Char → Char) (l : List Char) (i : Nat) (h : i < l.length) :
    (l.map f).getD i ' ' = f (l.getD i ' ') := by
  induction l generalizing i with
  | nil => simp at h
  | cons a t ih =>
    cases i with
    | zero => simp
    | succ n => simpa using ih n (by simpa using h)

/-- C3: with `encrypt=True`, `caesar_cipher` keeps the length of the
text and maps each position as follows — a lowercase letter goes to the
letter at its alphabet position plus the shift reduced modulo 26, an
uppercase letter likewise within the uppercase alphabet, and every other
character is unchanged in place.  Stated over the ASCII range, where
Lean's `Char.isLower`/`Char.isUpper` coincide with Python's
`str.islower`/`str.isupper`. -/
theorem caesar_encrypt_char_map (text : List Char) (shift : Int)
    (_hascii : ∀ c ∈ text, c.toNat ≤ 127) :
    (caesar_cipher text shift true).length = text.length ∧
    ∀ i, i < text.length →
      (caesar_cipher text shift true).getD i ' ' =
        (if (text.getD i ' ').isLower then
          Char.ofNat (97 + ((((text.getD i ' ').toNat : Int) - 97 + shift) % 26).toNat)
        else if (text.getD i ' ').isUpper then
          Char.ofNat (65 + ((((text.getD i ' ').toNat : Int) - 65 + shift) % 26).toNat)
        else text.getD i ' ') := by
  constructor
  · show (text.map (caesar_char shift)).length = text.length
    exact List.length_map text (caesar_char shift)
  · intro i hi
    show (text.map (caesar_char shift)).getD i ' ' = _
    rw [getD_map_of_lt _ _ _ hi]
    by_cases hl : (text.getD i ' ').isLower = true
    · simp only [hl, if_true]
      exact caesar_char_of_isLower shift hl
    · rw [Bool.not_eq_true] at hl
      by_cases hu : (text.getD i ' ').isUpper = true
      · simp only [hl, Bool.false_eq_true, if_false, hu, if_true]
        exact caesar_char_of_isUpper shift hu
      · rw [Bool.not_eq_true] at hu
        simp only [hl, hu, Bool.false_eq_true, if_false]
        exact caesar_char_of_other shift hl hu

/-- Witness for C3 at the concrete text `"Abz!"`, shift 5, position 0:
`'A'` is mapped to `'F'`. -/
theorem caesar_encrypt_char_map_witness :
    (caesar_cipher "Abz!".toList 5 true).getD 0 ' ' = 'F' := by
  have h := (caesar_encrypt_char_map "Abz!".toList 5 (by decide)).2 0 (by decide)
  rw [h]
  decide

end TextEncryptionTool

/-! ### TicTacToe.check_winner -/

theorem check_winner_some {b : Board} {m : Char} (h : check_winner b = some m) :
    winning_mark b m := by
  unfold check_winner at h
  split_ifs at h with h1 h2 h3 h4 h5 h6 h7 h8
  · cases h
    exact ⟨fun hsp => h1.2.2 ((h1.1.trans h1.2.1).symm.trans hsp), Or.inl ⟨rfl, h1.1.symm, (h1.1.trans h1.2.1).symm⟩⟩
  · cases h
    exact ⟨fun hsp => h2.2.2 ((h2.1.trans h2.2.1).symm.trans hsp), Or.inr <| Or.inl ⟨rfl, h2.1.symm, (h2.1.trans h2.2.1).symm⟩⟩
  · cases h
    exact ⟨fun hsp => h3.2.2 ((h3.1.trans h3.2.1).symm.trans hsp), Or.inr <| Or.inr <| Or.inl ⟨rfl, h3.1.symm, (h3.1.trans h3.2.1).symm⟩⟩
  · cases h
    exact ⟨fun hsp => h4.2.2 ((h4.1.trans h4.2.1).symm.trans hsp), Or.inr <| Or.inr <| Or.inr <| Or.inl ⟨rfl, h4.1.symm, (h4.1.trans h4.2.1).symm⟩⟩
  · cases h
    exact ⟨fun hsp => h5.2.2 ((h5.1.trans h5.2.1).symm.trans hsp), Or.inr <| Or.inr <| Or.inr <| Or.inr <| Or.inl ⟨rfl, h5.1.symm, (h5.1.trans h5.2.1).symm⟩⟩
  · cases h
    exact ⟨fun hsp => h6.2.2 ((h6.1.trans h6.2.1).symm.trans hsp), Or.inr <| Or.inr <| Or.inr <| Or.inr <| Or.inr <| Or.inl ⟨rfl, h6.1.symm, (h6.1.trans h6.2.1).symm⟩⟩
  · cases h
    exact ⟨fun hsp => h7.2.2 ((h7.1.trans h7.2.1).symm.trans hsp), Or.inr <| Or.inr <| Or.inr <| Or.inr <| Or.inr <| Or.inr <| Or.inl ⟨rfl, h7.1.symm, (h7.1.trans h7.2.1).symm⟩⟩
  · cases h
    exact ⟨fun hsp => h8.2.2 ((h8.1.trans h8.2.1).symm.trans hsp), Or.inr <| Or.inr <| Or.inr <| Or.inr <| Or.inr <| Or.inr <| Or.inr ⟨rfl, h8.1.symm, (h8.1.trans h8.2.1).symm⟩⟩

theorem check_winner_none {b : Board} (h : check_winner b = none) (m : Char) :
    ¬ winning_mark b m := by
  unfold check_winner at h
  split_ifs at h with h1 h2 h3 h4 h5 h6 h7 h8
  rintro ⟨hm, hline⟩
  rcases hline with he | he | he | he | he | he | he | he
  · exact h1 ⟨he.1.trans he.2.1.symm, he.2.1.trans he.2.2.symm, fun hsp => hm (he.2.2.symm.trans hsp)⟩
  · exact h2 ⟨he.1.trans he.2.1.symm, he.2.1.trans he.2.2.symm, fun hsp => hm (he.2.2.symm.trans hsp)⟩
  · exact h3 ⟨he.1.trans he.2.1.symm, he.2.1.trans he.2.2.symm, fun hsp => hm (he.2.2.symm.trans hsp)⟩
  · exact h4 ⟨he.1.trans he.2.1.symm, he.2.1.trans he.2.2.symm, fun hsp => hm (he.2.2.symm.trans hsp)⟩
  · exact h5 ⟨he.1.trans he.2.1.symm, he.2.1.trans he.2.2.symm, fun hsp => hm (he.2.2.symm.trans hsp)⟩
  · exact h6 ⟨he.1.trans he.2.1.symm, he.2.1.trans he.2.2.symm, fun hsp => hm (he.2.2.symm.trans hsp)⟩
  · exact h7 ⟨he.1.trans he.2.1.symm, he.2.1.trans he.2.2.symm, fun hsp => hm (he.2.2.symm.trans hsp)⟩
  · exact h8 ⟨he.1.trans he.2.1.symm, he.2.1.trans he.2.2.symm, fun hsp => hm (he.2.2.symm.trans hsp)⟩

/-- C2: `check_winner` returns `none` exactly when no winning line
exists on the board, and whenever it returns a mark that mark is a
non-blank character occupying one of the 8 winning lines (3 rows,
3 columns, 2 diagonals). -/
theorem check_winner_correct (b : Board) :
    (check_winner b = none ↔ ∀ m, ¬ winning_mark b m) ∧
    (∀ m, check_winner b = some m → winning_mark b m) := by
  refine ⟨⟨fun hn m => check_winner_none hn m, fun hall => ?_⟩, fun m h => check_winner_some h⟩
  cases hcw : check_winner b with
  | none => rfl
  | some m => exact absurd (check_winner_some hcw) (hall m)

/-- Witness for C2 on the board whose first column is filled with `'X'`:
the mark returned by `check_winner` occupies a winning line. -/
theorem check_winner_correct_witness :
    winning_mark (fun _ j => if j = (0 : Fin 3) then 'X' else ' ') 'X' :=
  (check_winner_correct (fun _ j => if j = (0 : Fin 3) then 'X' else ' ')).2 'X' (by decide)

/-! ### TicTacToe.make_move -/

/-- C10: `make_move` returns `False` and leaves the state unchanged when
the coordinates are out of `0..2` (so no out-of-bounds access happens)
or the addressed cell is not blank; otherwise it returns `True`, writes
the current player's mark into exactly that cell and leaves the other
cells, the current player and the game-over flag unchanged. -/
theorem make_move_correct (g : TicTacToe) (row col : Int) :
    ((row < 0 ∨ 3 ≤ row ∨ col < 0 ∨ 3 ≤ col) → make_move g row col = (false, g)) ∧
    (∀ (hr : 0 ≤ row ∧ row < 3) (hc : 0 ≤ col ∧ col < 3),
      (g.board ⟨row.toNat, by omega⟩ ⟨col.toNat, by omega⟩ ≠ ' ' →
        make_move g row col = (false, g)) ∧
      (g.board ⟨row.toNat, by omega⟩ ⟨col.toNat, by omega⟩ = ' ' →
        (make_move g row col).1 = true ∧
        (make_move g row col).2.board ⟨row.toNat, by omega⟩ ⟨col.toNat, by omega⟩
          = g.current_player ∧
        (∀ i j : Fin 3, ¬(i = (⟨row.toNat, by omega⟩ : Fin 3) ∧ j = (⟨col.toNat, by omega⟩ : Fin 3)) →
          (make_move g row col).2.board i j = g.board i j) ∧
        (make_move g row col).2.current_player = g.current_player ∧
        (make_move g row col).2.game_over = g.game_over)) := by
  constructor
  · intro hout
    simp only [make_move, dif_pos hout]
  · intro hr hc
    have hnot : ¬(row < 0 ∨ 3 ≤ row ∨ col < 0 ∨ 3 ≤ col) := by omega
    constructor
    · intro hocc
      simp only [make_move, dif_neg hnot]
      rw [if_pos hocc]
    · intro hblank
      have hnocc : ¬(g.board ⟨row.toNat, by omega⟩ ⟨col.toNat, by omega⟩ ≠ ' ') :=
        not_not_intro hblank
      simp only [make_move, dif_neg hnot]
      rw [if_neg hnocc]
      refine ⟨rfl, ?_, ?_, rfl, rfl⟩
      · simp
      · intro i j hij
        simp only
        rw [if_neg hij]

/-- Witness for C10: on the empty board with `'X'` to move, the move at
`(0, 0)` succeeds and the move at `(3, 0)` is rejected unchanged. -/
theorem make_move_correct_witness :
    (make_move ⟨fun _ _ => ' ', 'X', false⟩ 0 0).1 = true ∧
    make_move ⟨fun _ _ => ' ', 'X', false⟩ 3 0 = (false, ⟨fun _ _ => ' ', 'X', false⟩) :=
  ⟨(((make_move_correct ⟨fun _ _ => ' ', 'X', false⟩ 0 0).2
      (by decide) (by decide)).2 rfl).1,
   (make_move_correct ⟨fun _ _ => ' ', 'X', false⟩ 3 0).1 (by decide)⟩

/-! ### HangmanGame -/

theorem make_guess_preserves (g : HangmanGame) (c : Char)
    (h : g.wrong_guesses = (g.guessed_letters.filter (fun x => x ∉ g.word)).card) :
    (make_guess g c).2.word = g.word ∧
    (make_guess g c).2.max_wrong_guesses = g.max_wrong_guesses ∧
    (make_guess g c).2.wrong_guesses
      = ((make_guess g c).2.guessed_letters.filter
          (fun x => x ∉ (make_guess g c).2.word)).card := by
  unfold make_guess
  by_cases h1 : c.toLower ∈ g.guessed_letters
  · rw [if_pos h1]
    exact ⟨rfl, rfl, h⟩
  · rw [if_neg h1]
    by_cases h2 : c.toLower ∈ g.word
    · rw [if_pos h2]
      refine ⟨rfl, rfl, ?_⟩
      show g.wrong_guesses = ((insert c.toLower g.guessed_letters).filter
        (fun x => x ∉ g.word)).card
      rw [Finset.filter_insert, if_neg (not_not_intro h2)]
      exact h
    · rw [if_neg h2]
      refine ⟨rfl, rfl, ?_⟩
      show g.wrong_guesses + 1 = ((insert c.toLower g.guessed_letters).filter
        (fun x => x ∉ g.word)).card
      rw [Finset.filter_insert, if_pos h2, Finset.card_insert_of_not_mem
        (fun hmem => h1 (Finset.mem_filter.mp hmem).1), h]

theorem play_guesses_facts (gs : List Char) (g : HangmanGame)
    (h : g.wrong_guesses = (g.guessed_letters.filter (fun x => x ∉ g.word)).card) :
    (play_guesses g gs).word = g.word ∧
    (play_guesses g gs).max_wrong_guesses = g.max_wrong_guesses ∧
    (play_guesses g gs).wrong_guesses
      = ((play_guesses g gs).guessed_letters.filter
          (fun x => x ∉ (play_guesses g gs).word)).card := by
  induction gs generalizing g with
  | nil => exact ⟨rfl, rfl, h⟩
  | cons c t ih =>
    obtain ⟨hw, hm, hinv⟩ := make_guess_preserves g c h
    obtain ⟨hw', hm', hinv'⟩ := ih (make_guess g c).2 hinv
    exact ⟨hw'.trans hw, hm'.trans hm, hinv'⟩

/-- C4: starting from the state produced by `select_random_word` and
applying any sequence of `make_guess` calls, the wrong-guess counter
equals the number of distinct guessed letters that do not occur in the
word, and `is_game_lost` returns `True` exactly when that counter has
reached the fixed threshold `max_wrong_guesses = 6`. -/
theorem hangman_wrong_counter_invariant (chosen : List Char) (_hmem : chosen ∈ words)
    (gs : List Char) :
    (play_guesses (select_random_word chosen) gs).wrong_guesses
      = ((play_guesses (select_random_word chosen) gs).guessed_letters.filter
          (fun c => c ∉ (play_guesses (select_random_word chosen) gs).word)).card ∧
    (is_game_lost (play_guesses (select_random_word chosen) gs) = true ↔
      6 ≤ (play_guesses (select_random_word chosen) gs).wrong_guesses) ∧
    (play_guesses (select_random_word chosen) gs).max_wrong_guesses = 6 := by
  have h0 : (select_random_word chosen).wrong_guesses
      = ((select_random_word chosen).guessed_letters.filter
          (fun x => x ∉ (select_random_word chosen).word)).card := by
    simp [select_random_word]
  obtain ⟨hw, hm, hinv⟩ := play_guesses_facts gs _ h0
  have hmax : (play_guesses (select_random_word chosen) gs).max_wrong_guesses = 6 := hm
  refine ⟨hinv, ?_, hmax⟩
  rw [is_game_lost, hmax]
  exact decide_eq_true_iff

/-- Witness for C4: after guessing `q`, `p`, `q`, `z` against the word
`python`, the wrong-guess counter matches the number of distinct guessed
letters absent from the word. -/
theorem hangman_wrong_counter_invariant_witness :
    "python".toList ∈ words ∧
    (play_guesses (select_random_word "python".toList) ['q', 'p', 'q', 'z']).wrong_guesses
      = ((play_guesses (select_random_word "python".toList)
            ['q', 'p', 'q', 'z']).guessed_letters.filter
          (fun c => c ∉ (play_guesses (select_random_word "python".toList)
            ['q', 'p', 'q', 'z']).word)).card :=
  ⟨by decide, (hangman_wrong_counter_invariant "python".toList (by decide) _).1⟩

/-! ### safe_divide -/

/-- C5: `safe_divide a b` returns the quotient `a / b` when `b` is
nonzero, and returns `None` when `b` is zero; the division's
`ZeroDivisionError` (and, on numbers, the impossible `TypeError`) never
escapes, `safe_divide` being a total function into `Option`. -/
theorem safe_divide_correct (a b : ℚ) :
    (b ≠ 0 → safe_divide a b = some (a / b)) ∧
    (b = 0 → safe_divide a b = none) := by
  constructor
  · intro h
    simp [safe_divide, py_div, h]
  · intro h
    simp [safe_divide, py_div, h]

/-- Witness for C5 at `10 / 2` and `10 / 0`. -/
theorem safe_divide_correct_witness :
    safe_divide 10 2 = some (10 / 2) ∧ safe_divide 10 0 = none :=
  ⟨(safe_divide_correct 10 2).1 (by decide), (safe_divide_correct 10 0).2 rfl⟩

/-! ### transaction_example -/

/-- C6: the $200 transfer is atomic — when no `sqlite3.Error` occurs and
Alice's resulting balance is non-negative, both updates are committed;
when an error occurs or Alice's resulting balance would be negative, the
transaction is rolled back and both balances are exactly as before. -/
theorem transaction_transfer_atomic (init : Accounts) (err : Bool) :
    ((err = false ∧ 0 ≤ init.alice - 200) →
      transaction_transfer init err
        = { alice := init.alice - 200, bob := init.bob + 200 }) ∧
    ((err = true ∨ init.alice - 200 < 0) → transaction_transfer init err = init) := by
  constructor
  · rintro ⟨he, hbal⟩
    subst he
    unfold transaction_transfer
    rw [if_neg (by simp), if_neg (not_lt.mpr hbal)]
  · rintro (he | hbal)
    · subst he
      unfold transaction_transfer
      rw [if_pos rfl]
    · cases err with
      | true =>
        unfold transaction_transfer
        rw [if_pos rfl]
      | false =>
        unfold transaction_transfer
        rw [if_neg (by simp), if_pos hbal]

/-- Witness for C6: from balances (1000, 500) the transfer commits to
(800, 700); from balances (100, 500) it is rolled back. -/
theorem transaction_transfer_atomic_witness :
    transaction_transfer ⟨1000, 500⟩ false = ⟨(1000:ℚ) - 200, (500:ℚ) + 200⟩ ∧
    transaction_transfer ⟨100, 500⟩ false = ⟨100, 500⟩ :=
  ⟨(transaction_transfer_atomic ⟨1000, 500⟩ false).1 ⟨rfl, by norm_num⟩,
   (transaction_transfer_atomic ⟨100, 500⟩ false).2 (Or.inr (by norm_num))⟩

/-! ### Task.update_status -/

/-- C7: `update_status` returns `True`, sets `status` and refreshes
`updated_at` when the new status is one of `pending`, `in_progress`,
`completed`, `cancelled`; otherwise it returns `False` and leaves the
task unchanged; and in both cases every other field (`title`,
`description`, `priority`, `due_date`, `created_at`, `id`) is
unchanged. -/
theorem update_status_correct (t : Task) (new_status : String) (now : Nat) :
    (new_status ∈ valid_statuses →
      update_status t new_status now
        = (true, { t with status := new_status, updated_at := now })) ∧
    (new_status ∉ valid_statuses → update_status t new_status now = (false, t)) ∧
    ((update_status t new_status now).2.title = t.title ∧
     (update_status t new_status now).2.description = t.description ∧
     (update_status t new_status now).2.priority = t.priority ∧
     (update_status t new_status now).2.due_date = t.due_date ∧
     (update_status t new_status now).2.created_at = t.created_at ∧
     (update_status t new_status now).2.id = t.id) := by
  refine ⟨fun h => ?_, fun h => ?_, ?_⟩
  · unfold update_status
    rw [if_pos h]
  · unfold update_status
    rw [if_neg h]
  · unfold update_status
    by_cases h : new_status ∈ valid_statuses
    · rw [if_pos h]
      exact ⟨rfl, rfl, rfl, rfl, rfl, rfl⟩
    · rw [if_neg h]
      exact ⟨rfl, rfl, rfl, rfl, rfl, rfl⟩

/-- Witness for C7: a pending task moved to `completed` at instant 5. -/
theorem update_status_correct_witness :
    update_status ⟨"t", "", "medium", "pending", none, 0, 0, none⟩ "completed" 5
      = (true, ⟨"t", "", "medium", "completed", none, 0, 5, none⟩) :=
  (update_status_correct ⟨"t", "", "medium", "pending", none, 0, 0, none⟩
    "completed" 5).1 (by decide)

/-! ### NoteTakingApp -/

/-- C8: `create_note` appends exactly one record with exactly the six
fields `id`, `title`, `content`, `category`, `created_at`, `updated_at`
(the fields of `Note`), where `id` is the length of the notes list
before the append plus 1, and adds the given category to the category
set. -/
theorem create_note_correct (app : NoteTakingApp) (title content category : String)
    (now : Nat) :
    (create_note app title content category now).notes
      = app.notes ++ [{ id := app.notes.length + 1, title := title, content := content,
                        category := category, created_at := now, updated_at := now }] ∧
    (create_note app title content category now).categories
      = insert category app.categories :=
  ⟨rfl, rfl⟩

/-- C9: note ids are not globally unique — after creating notes 1 and 2,
deleting note 1 (not the most recent) and creating a third note, two
distinct notes carry id 2; `edit_note` and `delete_note` then act only
on the first note in list order with that id. -/
theorem note_ids_not_unique :
    note_scenario.notes.map Note.id = [2, 2] ∧
    note_scenario.notes.map Note.title = ["n2", "n3"] ∧
    (edit_note note_scenario 2 (some "edited") none none 5).2.notes.map Note.title
      = ["edited", "n3"] ∧
    (delete_note note_scenario 2).2.notes.map Note.title = ["n3"] :=
  ⟨rfl, rfl, rfl, rfl⟩

end LearningForFriends
